import Mathlib

/-!
Shallow embedding of the GalacticBuf codec from the EnergyHack25 repository.

Encoder and text-grammar parser: `src/GalacticBuf serialization/solution.py`.
Decoder: `decode_galacticbuf` in `src/auth/app.py`.

Conventions of the embedding:
* Python `bytes`/`bytearray` become `List Nat`, each entry a byte value.
  Text (`str`) payloads are represented by their UTF-8 byte sequences at the
  value-model level, and by `List Char` inside the text-grammar parser, with
  `utf8_encode` bridging the two (Python keeps `str` and calls `.encode`
  at serialization points; UTF-8 encoding is injective, so structural
  equality of strings and of their byte lists agree).
* Python's in-place `bytearray` mutation becomes explicit state passing:
  each writer takes the buffer and returns either the extended buffer or,
  when the Python code raises, the buffer as mutated up to the raise paired
  with the error (`Except (List Nat × Err) (List Nat)`); an exception in
  Python leaves the caller's bytearray in exactly that mutated state.
* Bit operations on byte-sized operands are written arithmetically:
  `x & 0xFF` is `x % 256`, `x >> k` is `x / 2 ^ k`, and `(hi << 8) | lo`
  is `256 * hi + lo` (equal whenever `lo < 256`, which holds for every
  operand the code feeds it, as all such bytes come from `% 256` masks
  or from Python `bytes` indexing).
-/

/-- Errors raised by the encoder (`ValueError` messages in `solution.py`). -/
inductive Err where
  | int64OutOfRange
  | stringTooLong
  | tooManyFields
  | invalidFieldNameLength
  | tooManyListElements
  | listElementTypeMismatch
  | unsupportedListElementType
  | messageTooLarge
  deriving DecidableEq, Repr

/-- Errors raised by `decode_galacticbuf` in `auth/app.py`: the explicit
`ValueError`s plus Python's `IndexError` from out-of-bounds byte indexing. -/
inductive DecErr where
  | invalidMagic
  | unsupportedType
  | indexError
  deriving DecidableEq, Repr

/-- Errors raised by the CLI grammar parser in `solution.py`. -/
inductive PErr where
  | invalidArgument
  | emptyFieldName
  | emptyObjectFieldName
  deriving DecidableEq, Repr

/-- The GalacticBuf value model (`GBValue`/`GBList`/`GBObject` dataclasses).
The Python dataclass carries a numeric `type` tag plus one payload slot per
variant; since the constructors (`make_int` etc.) keep tag and payload in
sync, the model is the evident closed tagged union.  A list carries its
declared element-type tag (which the dataclass does not force to match the
elements — the encoder checks that). -/
inductive GBValue where
  | int (v : Int)
  | str (s : List Nat)
  | list (element_type : Nat) (elements : List GBValue)
  | obj (fields : List (List Nat × GBValue))

/-- `GBValue.TYPE_INT = 1`, `TYPE_STRING = 2`, `TYPE_LIST = 3`,
`TYPE_OBJECT = 4`: the `type` field of the dataclass. -/
def GBValue.tag : GBValue → Nat
  | .int _ => 1
  | .str _ => 2
  | .list _ _ => 3
  | .obj _ => 4

/-- Top-level object (`GBObject` dataclass). -/
structure GBObject where
  fields : List (List Nat × GBValue)

/-- `write_u8`: appends `v & 0xFF`. -/
def write_u8 (buf : List Nat) (v : Nat) : List Nat :=
  buf ++ [v % 256]

/-- `write_u16`: appends `(v >> 8) & 0xFF` then `v & 0xFF` (big-endian). -/
def write_u16 (buf : List Nat) (v : Nat) : List Nat :=
  buf ++ [v / 256 % 256, v % 256]

/-- The eight bytes appended by `write_i64`'s shift loop
(`(u >> shift) & 0xFF` for `shift = 56, 48, ..., 0`). -/
def i64_bytes (u : Nat) : List Nat :=
  [u / 2 ^ 56 % 256, u / 2 ^ 48 % 256, u / 2 ^ 40 % 256, u / 2 ^ 32 % 256,
   u / 2 ^ 24 % 256, u / 2 ^ 16 % 256, u / 2 ^ 8 % 256, u % 256]

/-- `write_i64`: range check, then big-endian two's complement
(`u = v & (2**64 - 1)`, which for a Python int is `v mod 2**64`). -/
def write_i64 (buf : List Nat) (v : Int) : Except (List Nat × Err) (List Nat) :=
  if -2 ^ 63 ≤ v ∧ v < 2 ^ 63 then
    .ok (buf ++ i64_bytes ((v % 2 ^ 64).toNat))
  else
    .error (buf, .int64OutOfRange)

/-- `write_string_value`: length check, u16 length, raw bytes.
(`s.encode("utf-8")` is the identity here: string payloads are already
byte lists.) -/
def write_string_value (buf : List Nat) (s : List Nat) :
    Except (List Nat × Err) (List Nat) :=
  if s.length > 65535 then
    .error (buf, .stringTooLong)
  else
    .ok (write_u16 buf s.length ++ s)

mutual

/-- `write_value`: type tag then dispatch.  The list and object cases inline
`write_list_value` and `write_object_no_header` (standalone wrappers with the
source names are defined below and proved equal); the dataclass tag set is
closed here, so the Python `else: raise ValueError("Unknown value type")`
branch is unreachable. -/
def write_value (buf : List Nat) (val : GBValue) :
    Except (List Nat × Err) (List Nat) :=
  match val with
  | .int v => write_i64 (write_u8 buf 1) v
  | .str s => write_string_value (write_u8 buf 2) s
  | .list t es =>
    -- write_list_value
    let b1 := write_u8 (write_u8 buf 3) t
    if es.length > 65535 then .error (b1, .tooManyListElements)
    else write_list_elems (write_u16 b1 es.length) t es
  | .obj fs =>
    -- write_object_no_header
    let b0 := write_u8 buf 4
    if fs.length > 255 then .error (b0, .tooManyFields)
    else write_object_fields (write_u8 b0 fs.length) fs

/-- The per-element body of `write_list_value`'s loop: tag check, then the
payload written *without* a per-element tag.  A list-typed element whose tag
matches a declared list element type falls into the Python
`else: raise ValueError("Unsupported list element type")` branch. -/
def write_list_elems (buf : List Nat) (element_type : Nat)
    (elements : List GBValue) : Except (List Nat × Err) (List Nat) :=
  match elements with
  | [] => .ok buf
  | el :: rest =>
    if el.tag ≠ element_type then .error (buf, .listElementTypeMismatch)
    else
      match (match el with
        | .int v => write_i64 buf v
        | .str s => write_string_value buf s
        | .obj fs =>
          let b0 := buf
          if fs.length > 255 then .error (b0, .tooManyFields)
          else write_object_fields (write_u8 b0 fs.length) fs
        | .list _ _ => .error (buf, .unsupportedListElementType)) with
      | .ok b => write_list_elems b element_type rest
      | .error e => .error e

/-- The field loop of `write_object_no_header`: name length check, name
length byte, name bytes, then `write_value` on the field's value. -/
def write_object_fields (buf : List Nat)
    (fields : List (List Nat × GBValue)) :
    Except (List Nat × Err) (List Nat) :=
  match fields with
  | [] => .ok buf
  | (name, val) :: rest =>
    if 1 ≤ name.length ∧ name.length ≤ 255 then
      match write_value (write_u8 buf name.length ++ name) val with
      | .ok b => write_object_fields b rest
      | .error e => .error e
    else .error (buf, .invalidFieldNameLength)

end

/-- `write_object_no_header`: field-count check, count byte, field loop. -/
def write_object_no_header (buf : List Nat)
    (fields : List (List Nat × GBValue)) :
    Except (List Nat × Err) (List Nat) :=
  if fields.length > 255 then .error (buf, .tooManyFields)
  else write_object_fields (write_u8 buf fields.length) fields

/-- `write_list_value`: element-type byte, count check, count, element loop. -/
def write_list_value (buf : List Nat) (element_type : Nat)
    (elements : List GBValue) : Except (List Nat × Err) (List Nat) :=
  let b1 := write_u8 buf element_type
  if elements.length > 65535 then .error (b1, .tooManyListElements)
  else write_list_elems (write_u16 b1 elements.length) element_type elements

/-- `write_value` on a list dispatches to `write_list_value`. -/
theorem write_value_list (buf : List Nat) (t : Nat) (es : List GBValue) :
    write_value buf (.list t es) = write_list_value (write_u8 buf 3) t es := by
  rfl

/-- `write_value` on an object dispatches to `write_object_no_header`. -/
theorem write_value_obj (buf : List Nat) (fs : List (List Nat × GBValue)) :
    write_value buf (.obj fs) = write_object_no_header (write_u8 buf 4) fs := by
  rfl

/-- The per-element payload writer inside `write_list_value`'s loop
(`write_i64` / `write_string_value` / `write_object_no_header`, and the
`Unsupported list element type` branch for nested lists). -/
def write_list_elem_payload (buf : List Nat) (el : GBValue) :
    Except (List Nat × Err) (List Nat) :=
  match el with
  | .int v => write_i64 buf v
  | .str s => write_string_value buf s
  | .obj fs => write_object_no_header buf fs
  | .list _ _ => .error (buf, .unsupportedListElementType)

/-- Unfolding of the element loop through `write_list_elem_payload`. -/
theorem write_list_elems_cons (buf : List Nat) (t : Nat) (el : GBValue)
    (rest : List GBValue) :
    write_list_elems buf t (el :: rest) =
      if el.tag ≠ t then .error (buf, .listElementTypeMismatch)
      else
        match write_list_elem_payload buf el with
        | .ok b => write_list_elems b t rest
        | .error e => .error e := by
  cases el <;> rfl

/-- The field loop of `serialize_message` (identical in shape to
`write_object_fields` but without the count byte and count check). -/
def serialize_fields (buf : List Nat)
    (fields : List (List Nat × GBValue)) :
    Except (List Nat × Err) (List Nat) :=
  match fields with
  | [] => .ok buf
  | (name, val) :: rest =>
    if 1 ≤ name.length ∧ name.length ≤ 255 then
      match write_value (write_u8 buf name.length ++ name) val with
      | .ok b => serialize_fields b rest
      | .error e => .error e
    else .error (buf, .invalidFieldNameLength)

/-- `serialize_message`: body loop on a fresh buffer, total-length check,
then the 4-byte header (version, field count as `u8` — masked to one byte —
and the u16 total length) followed by the body.  The local buffers are
discarded when the Python exception propagates, so only the error kind is
visible to the caller. -/
def serialize_message (obj : GBObject) : Except Err (List Nat) :=
  match serialize_fields [] obj.fields with
  | .error (_, e) => .error e
  | .ok body =>
    let total_len := 4 + body.length
    if total_len > 65535 then .error .messageTooLarge
    else .ok (write_u16 (write_u8 (write_u8 [] 1) obj.fields.length) total_len
        ++ body)

/-- A decoded field value in `decode_galacticbuf`'s result dict: the decoder
only ever stores Python `int`s or `str`s (the latter as UTF-8 bytes here). -/
inductive DVal where
  | int (v : Int)
  | str (s : List Nat)
  deriving DecidableEq, Repr

/-- `raw[pos]` on Python `bytes`: the byte, or `IndexError` out of bounds. -/
def byte_at (raw : List Nat) (pos : Nat) : Except DecErr Nat :=
  match raw[pos]? with
  | some b => .ok b
  | none => .error .indexError

/-- Python `int.from_bytes(bs, "big", signed=True)`: big-endian accumulation,
then two's-complement sign adjustment on the slice's actual length (an empty
slice yields `0`). -/
def int_from_bytes_signed (bs : List Nat) : Int :=
  let n : Nat := bs.foldl (fun a b => a * 256 + b) 0
  if (n : Int) < 2 ^ (8 * bs.length - 1) then (n : Int)
  else (n : Int) - 2 ^ (8 * bs.length)

/-- `result[name] = value` on a Python dict kept as an insertion-ordered
association list: overwrite in place if the key exists, else append. -/
def dict_insert (d : List (List Nat × DVal)) (k : List Nat) (v : DVal) :
    List (List Nat × DVal) :=
  if d.any (fun p => p.1 = k) then
    d.map (fun p => if p.1 = k then (k, v) else p)
  else d ++ [(k, v)]

/-- The `for _ in range(field_count)` loop of `decode_galacticbuf`: name
length byte, name slice (Python slicing clamps at the end of the buffer,
hence `take`/`drop`), value tag, then an Int or String payload; any other
tag raises `ValueError("Unsupported type in decoder")`.  UTF-8 decoding of
the name and string slices is the identity on the byte representation. -/
def decode_fields (raw : List Nat) :
    Nat → Nat → List (List Nat × DVal) →
    Except DecErr (List (List Nat × DVal))
  | 0, _, result => .ok result
  | count + 1, pos, result => do
    let name_len ← byte_at raw pos
    let name := (raw.drop (pos + 1)).take name_len
    let val_type ← byte_at raw (pos + 1 + name_len)
    if val_type = 1 then
      let num := int_from_bytes_signed ((raw.drop (pos + 1 + name_len + 1)).take 8)
      decode_fields raw count (pos + 1 + name_len + 1 + 8)
        (dict_insert result name (.int num))
    else if val_type = 2 then do
      let hi ← byte_at raw (pos + 1 + name_len + 1)
      let lo ← byte_at raw (pos + 1 + name_len + 1 + 1)
      let strlen := 256 * hi + lo
      let s := (raw.drop (pos + 1 + name_len + 1 + 2)).take strlen
      decode_fields raw count (pos + 1 + name_len + 1 + 2 + strlen)
        (dict_insert result name (.str s))
    else .error .unsupportedType

/-- `decode_galacticbuf` (`auth/app.py`): magic byte, field count and total
length from the header (the total length is read but never compared with
anything), then the field loop. -/
def decode_galacticbuf (raw : List Nat) :
    Except DecErr (List (List Nat × DVal)) := do
  let b0 ← byte_at raw 0
  if b0 ≠ 1 then .error .invalidMagic
  else do
    let field_count ← byte_at raw 1
    let hi ← byte_at raw 2
    let lo ← byte_at raw 3
    let _total_len := 256 * hi + lo
    decode_fields raw field_count 4 []

/-- Prepending `buf` to the buffer inside a writer result (both in the
success buffer and in the buffer carried by an error). -/
def shift_buf (buf : List Nat) :
    Except (List Nat × Err) (List Nat) → Except (List Nat × Err) (List Nat)
  | .ok s => .ok (buf ++ s)
  | .error (s, e) => .error (buf ++ s, e)

theorem shift_buf_ok (buf s : List Nat) :
    shift_buf buf (.ok s) = .ok (buf ++ s) := rfl

theorem shift_buf_error (buf s : List Nat) (e : Err) :
    shift_buf buf (.error (s, e)) = .error (buf ++ s, e) := rfl

theorem shift_buf_shift (a b : List Nat)
    (r : Except (List Nat × Err) (List Nat)) :
    shift_buf a (shift_buf b r) = shift_buf (a ++ b) r := by
  cases r with
  | ok s => simp [shift_buf, List.append_assoc]
  | error e => obtain ⟨s, e⟩ := e; simp [shift_buf, List.append_assoc]

theorem write_u8_prepend (a b : List Nat) (v : Nat) :
    write_u8 (a ++ b) v = a ++ write_u8 b v := by
  simp [write_u8]

theorem write_u16_prepend (a b : List Nat) (v : Nat) :
    write_u16 (a ++ b) v = a ++ write_u16 b v := by
  simp [write_u16]

theorem write_i64_prepend (a b : List Nat) (v : Int) :
    write_i64 (a ++ b) v = shift_buf a (write_i64 b v) := by
  unfold write_i64
  split <;> simp [shift_buf]

theorem write_string_value_prepend (a b : List Nat) (s : List Nat) :
    write_string_value (a ++ b) s = shift_buf a (write_string_value b s) := by
  unfold write_string_value
  split <;> simp [shift_buf, write_u16_prepend]

mutual

/-- The buffer argument of `write_value` is append-only: writing into
`a ++ b` is writing into `b` with `a` prepended to the outcome. -/
theorem write_value_prepend (val : GBValue) (a b : List Nat) :
    write_value (a ++ b) val = shift_buf a (write_value b val) := by
  cases val with
  | int v =>
    simp only [write_value]
    rw [write_u8_prepend, write_i64_prepend]
  | str s =>
    simp only [write_value]
    rw [write_u8_prepend, write_string_value_prepend]
  | list t es =>
    simp only [write_value]
    by_cases h : es.length > 65535
    · simp only [if_pos h, write_u8_prepend, shift_buf]
    · simp only [if_neg h, write_u8_prepend, write_u16_prepend,
        write_list_elems_prepend es]
  | obj fs =>
    simp only [write_value]
    by_cases h : fs.length > 255
    · simp only [if_pos h, write_u8_prepend, shift_buf]
    · simp only [if_neg h, write_u8_prepend,
        write_object_fields_prepend fs]

/-- Buffer append-only property for the per-element payload writer. -/
theorem write_list_elem_payload_prepend (el : GBValue) (a b : List Nat) :
    write_list_elem_payload (a ++ b) el =
      shift_buf a (write_list_elem_payload b el) := by
  cases el with
  | int v => exact write_i64_prepend a b v
  | str s => exact write_string_value_prepend a b s
  | obj fs =>
    simp only [write_list_elem_payload, write_object_no_header]
    by_cases h : fs.length > 255
    · simp only [if_pos h, shift_buf]
    · simp only [if_neg h, write_u8_prepend,
        write_object_fields_prepend fs]
  | list t es => rfl

/-- Buffer append-only property for the list-element loop. -/
theorem write_list_elems_prepend (elements : List GBValue) (a b : List Nat)
    (t : Nat) :
    write_list_elems (a ++ b) t elements =
      shift_buf a (write_list_elems b t elements) := by
  cases elements with
  | nil => rfl
  | cons el rest =>
    rw [write_list_elems_cons, write_list_elems_cons]
    by_cases h : el.tag ≠ t
    · simp only [if_pos h, shift_buf]
    · simp only [if_neg h, write_list_elem_payload_prepend el]
      cases hp : write_list_elem_payload b el with
      | ok s =>
        simp only [shift_buf]
        exact write_list_elems_prepend rest a s t
      | error e => obtain ⟨s, e⟩ := e; rfl

/-- Buffer append-only property for the object-field loop. -/
theorem write_object_fields_prepend (fields : List (List Nat × GBValue))
    (a b : List Nat) :
    write_object_fields (a ++ b) fields =
      shift_buf a (write_object_fields b fields) := by
  cases fields with
  | nil => rfl
  | cons p rest =>
    obtain ⟨name, val⟩ := p
    simp only [write_object_fields]
    by_cases h : 1 ≤ name.length ∧ name.length ≤ 255
    · simp only [if_pos h]
      have hb : write_u8 (a ++ b) name.length ++ name
          = a ++ (write_u8 b name.length ++ name) := by
        simp [write_u8, List.append_assoc]
      rw [hb, write_value_prepend val a (write_u8 b name.length ++ name)]
      cases hv : write_value (write_u8 b name.length ++ name) val with
      | ok s =>
        simp only [shift_buf]
        exact write_object_fields_prepend rest a s
      | error e => obtain ⟨s, e⟩ := e; simp [shift_buf]
    · simp only [if_neg h, shift_buf]

end

theorem fold_i64_bytes (u : Nat) (h : u < 2 ^ 64) :
    (i64_bytes u).foldl (fun a b => a * 256 + b) 0 = u := by
  simp only [i64_bytes, List.foldl]
  omega

/-- Reading back `write_i64`'s eight bytes with Python's
`int.from_bytes(..., "big", signed=True)` recovers the value. -/
theorem int_from_bytes_i64 (v : Int) (h1 : -2 ^ 63 ≤ v) (h2 : v < 2 ^ 63) :
    int_from_bytes_signed (i64_bytes ((v % 2 ^ 64).toNat)) = v := by
  have hnn : 0 ≤ v % 2 ^ 64 := Int.emod_nonneg v (by norm_num)
  have hlt : v % 2 ^ 64 < 2 ^ 64 := Int.emod_lt_of_pos v (by norm_num)
  have hcast : (((v % 2 ^ 64).toNat : Int)) = v % 2 ^ 64 :=
    Int.toNat_of_nonneg hnn
  have hult : (v % 2 ^ 64).toNat < 2 ^ 64 := by omega
  have hlen : (i64_bytes ((v % 2 ^ 64).toNat)).length = 8 := by
    simp [i64_bytes]
  unfold int_from_bytes_signed
  rw [fold_i64_bytes _ hult, hlen]
  dsimp only
  norm_num
  split <;> omega

theorem write_value_nil (buf : List Nat) (val : GBValue) :
    write_value buf val = shift_buf buf (write_value [] val) := by
  have h := write_value_prepend val buf []
  simpa using h

theorem write_list_elems_nil (buf : List Nat) (t : Nat)
    (elements : List GBValue) :
    write_list_elems buf t elements =
      shift_buf buf (write_list_elems [] t elements) := by
  have h := write_list_elems_prepend elements buf [] t
  simpa using h

theorem write_object_fields_nil (buf : List Nat)
    (fields : List (List Nat × GBValue)) :
    write_object_fields buf fields =
      shift_buf buf (write_object_fields [] fields) := by
  have h := write_object_fields_prepend fields buf []
  simpa using h

/-- `serialize_fields` is the same loop as `write_object_fields`. -/
theorem serialize_fields_eq (fields : List (List Nat × GBValue)) :
    ∀ buf, serialize_fields buf fields = write_object_fields buf fields := by
  induction fields with
  | nil => intro buf; rfl
  | cons p rest ih =>
    intro buf
    obtain ⟨name, val⟩ := p
    simp only [serialize_fields, write_object_fields]
    split
    · cases write_value (write_u8 buf name.length ++ name) val with
      | ok b => exact ih b
      | error e => rfl
    · rfl

/-- What a successful `write_value` of an Int looks like. -/
theorem write_value_int_ok (v : Int) (sv : List Nat)
    (h : write_value [] (.int v) = .ok sv) :
    (-2 ^ 63 ≤ v ∧ v < 2 ^ 63) ∧
      sv = 1 :: i64_bytes ((v % 2 ^ 64).toNat) := by
  revert h
  show write_i64 (write_u8 [] 1) v = .ok sv → _
  unfold write_i64
  split
  · intro h
    refine ⟨by assumption, ?_⟩
    cases h
    rfl
  · intro h
    cases h

/-- What a successful `write_value` of a String looks like. -/
theorem write_value_str_ok (s : List Nat) (sv : List Nat)
    (h : write_value [] (.str s) = .ok sv) :
    s.length ≤ 65535 ∧
      sv = 2 :: s.length / 256 % 256 :: s.length % 256 :: s := by
  revert h
  show write_string_value (write_u8 [] 2) s = .ok sv → _
  unfold write_string_value
  split
  · intro h; cases h
  · intro h
    refine ⟨by omega, ?_⟩
    cases h
    rfl

/-- A successful `write_value` starts with the value's type tag byte. -/
theorem write_value_ok_head (val : GBValue) (sv : List Nat)
    (h : write_value [] val = .ok sv) : ∃ r, sv = val.tag :: r := by
  cases val with
  | int v =>
    obtain ⟨-, rfl⟩ := write_value_int_ok v sv h
    exact ⟨_, rfl⟩
  | str s =>
    obtain ⟨-, rfl⟩ := write_value_str_ok s sv h
    exact ⟨_, rfl⟩
  | list t es =>
    revert h
    simp only [write_value]
    split
    · intro h; cases h
    · rw [write_list_elems_nil]
      cases write_list_elems [] t es with
      | ok s' => intro h; cases h; exact ⟨_, rfl⟩
      | error e => obtain ⟨s', e⟩ := e; intro h; cases h
  | obj fs =>
    revert h
    simp only [write_value]
    split
    · intro h; cases h
    · rw [write_object_fields_nil]
      cases write_object_fields [] fs with
      | ok s' => intro h; cases h; exact ⟨_, rfl⟩
      | error e => obtain ⟨s', e⟩ := e; intro h; cases h

/-- `raw[pos]` when the tail of `raw` from `pos` is known. -/
theorem byte_at_of_drop (raw : List Nat) (pos x : Nat) (xs : List Nat)
    (h : raw.drop pos = x :: xs) : byte_at raw pos = .ok x := by
  have h0 : raw[pos]? = some x := by
    have := List.getElem?_drop raw pos 0
    rw [h] at this
    simpa using this.symm
  simp [byte_at, h0]

theorem drop_at_add (raw : List Nat) (pos a : Nat) :
    raw.drop (pos + a) = (raw.drop pos).drop a := by
  rw [List.drop_drop]

/-- One iteration of the decoder loop over an Int field block. -/
theorem decode_fields_succ_int (raw : List Nat) (pos c : Nat)
    (acc : List (List Nat × DVal)) (L : Nat) (name z : List Nat)
    (hdrop : raw.drop pos = L :: (name ++ (1 :: z))) (hL : name.length = L) :
    decode_fields raw (c + 1) pos acc =
      decode_fields raw c (pos + 1 + L + 1 + 8)
        (dict_insert acc name (.int (int_from_bytes_signed (z.take 8)))) := by
  have h0 : byte_at raw pos = .ok L := byte_at_of_drop _ _ _ _ hdrop
  have hd1 : raw.drop (pos + 1) = name ++ (1 :: z) := by
    rw [drop_at_add, hdrop]; rfl
  have hname : (raw.drop (pos + 1)).take L = name := by
    rw [hd1, ← hL, List.take_left]
  have hd2 : raw.drop (pos + 1 + L) = 1 :: z := by
    rw [drop_at_add raw (pos + 1) L, hd1, ← hL, List.drop_left]
  have h1 : byte_at raw (pos + 1 + L) = .ok 1 := byte_at_of_drop _ _ _ _ hd2
  have hd3 : raw.drop (pos + 1 + L + 1) = z := by
    rw [drop_at_add raw (pos + 1 + L) 1, hd2]; rfl
  simp only [decode_fields, h0, h1, hname, hd3, Except.instMonad, Except.bind]
  simp

/-- One iteration of the decoder loop over a String field block. -/
theorem decode_fields_succ_str (raw : List Nat) (pos c : Nat)
    (acc : List (List Nat × DVal)) (L : Nat) (name : List Nat)
    (hi lo : Nat) (z : List Nat)
    (hdrop : raw.drop pos = L :: (name ++ (2 :: hi :: lo :: z)))
    (hL : name.length = L) :
    decode_fields raw (c + 1) pos acc =
      decode_fields raw c (pos + 1 + L + 1 + 2 + (256 * hi + lo))
        (dict_insert acc name (.str (z.take (256 * hi + lo)))) := by
  have h0 : byte_at raw pos = .ok L := byte_at_of_drop _ _ _ _ hdrop
  have hd1 : raw.drop (pos + 1) = name ++ (2 :: hi :: lo :: z) := by
    rw [drop_at_add, hdrop]; rfl
  have hname : (raw.drop (pos + 1)).take L = name := by
    rw [hd1, ← hL, List.take_left]
  have hd2 : raw.drop (pos + 1 + L) = 2 :: hi :: lo :: z := by
    rw [drop_at_add raw (pos + 1) L, hd1, ← hL, List.drop_left]
  have h1 : byte_at raw (pos + 1 + L) = .ok 2 := byte_at_of_drop _ _ _ _ hd2
  have hd3 : raw.drop (pos + 1 + L + 1) = hi :: lo :: z := by
    rw [drop_at_add raw (pos + 1 + L) 1, hd2]; rfl
  have h2 : byte_at raw (pos + 1 + L + 1) = .ok hi :=
    byte_at_of_drop _ _ _ _ hd3
  have hd4 : raw.drop (pos + 1 + L + 1 + 1) = lo :: z := by
    rw [drop_at_add raw (pos + 1 + L + 1) 1, hd3]; rfl
  have h3 : byte_at raw (pos + 1 + L + 1 + 1) = .ok lo :=
    byte_at_of_drop _ _ _ _ hd4
  have hd5 : raw.drop (pos + 1 + L + 1 + 2) = z := by
    rw [drop_at_add raw (pos + 1 + L + 1) 2, hd3]; rfl
  simp only [decode_fields, h0, h1, h2, h3, hname, hd5, Except.instMonad,
    Except.bind]
  simp

/-- One iteration of the decoder loop over a field block whose value tag is
neither Int nor String: `ValueError("Unsupported type in decoder")`. -/
theorem decode_fields_succ_bad (raw : List Nat) (pos c : Nat)
    (acc : List (List Nat × DVal)) (L : Nat) (name : List Nat)
    (tb : Nat) (z : List Nat)
    (hdrop : raw.drop pos = L :: (name ++ (tb :: z)))
    (hL : name.length = L) (ht1 : tb ≠ 1) (ht2 : tb ≠ 2) :
    decode_fields raw (c + 1) pos acc = .error .unsupportedType := by
  have h0 : byte_at raw pos = .ok L := byte_at_of_drop _ _ _ _ hdrop
  have hd1 : raw.drop (pos + 1) = name ++ (tb :: z) := by
    rw [drop_at_add, hdrop]; rfl
  have hd2 : raw.drop (pos + 1 + L) = tb :: z := by
    rw [drop_at_add raw (pos + 1) L, hd1, ← hL, List.drop_left]
  have h1 : byte_at raw (pos + 1 + L) = .ok tb := byte_at_of_drop _ _ _ _ hd2
  simp only [decode_fields, h0, h1, Except.instMonad, Except.bind]
  simp [ht1, ht2]

theorem serialize_fields_nil (buf : List Nat)
    (l : List (List Nat × GBValue)) :
    serialize_fields buf l = shift_buf buf (serialize_fields [] l) := by
  rw [serialize_fields_eq, serialize_fields_eq, write_object_fields_nil]

/-- The value a decoded scalar field carries (bridge between the encoder's
value model and the decoder's dict entries; only applied to Int/Str). -/
def to_dval : GBValue → DVal
  | .int v => .int v
  | .str s => .str s
  | .list _ _ => .int 0
  | .obj _ => .int 0

theorem serialize_fields_cons_ok (name : List Nat) (val : GBValue)
    (rest' : List (List Nat × GBValue)) (bodyEnc : List Nat)
    (hser : serialize_fields [] ((name, val) :: rest') = .ok bodyEnc) :
    ∃ sv tailEnc, (1 ≤ name.length ∧ name.length ≤ 255)
      ∧ write_value [] val = .ok sv
      ∧ serialize_fields [] rest' = .ok tailEnc
      ∧ bodyEnc = ((write_u8 [] name.length ++ name) ++ sv) ++ tailEnc := by
  simp only [serialize_fields] at hser
  split at hser
  case isFalse h => cases hser
  case isTrue hn =>
    rw [write_value_nil] at hser
    cases hv : write_value [] val with
    | error e =>
      rw [hv] at hser
      obtain ⟨s, e⟩ := e
      simp [shift_buf] at hser
    | ok sv =>
      rw [hv] at hser
      simp only [shift_buf] at hser
      rw [serialize_fields_nil] at hser
      cases ht : serialize_fields [] rest' with
      | error e =>
        rw [ht] at hser
        obtain ⟨s, e⟩ := e
        simp [shift_buf] at hser
      | ok tailEnc =>
        rw [ht] at hser
        simp only [shift_buf] at hser
        refine ⟨sv, tailEnc, hn, rfl, rfl, ?_⟩
        cases hser
        rfl

theorem decode_fields_chain (fields : List (List Nat × GBValue)) :
    ∀ (raw bodyEnc rest : List Nat) (pos k : Nat)
      (acc : List (List Nat × DVal)),
    serialize_fields [] fields = .ok bodyEnc →
    raw.drop pos = bodyEnc ++ rest →
    (∀ p ∈ fields, p.2.tag = 1 ∨ p.2.tag = 2) →
    decode_fields raw (fields.length + k) pos acc =
      decode_fields raw k (pos + bodyEnc.length)
        (fields.foldl (fun d p => dict_insert d p.1 (to_dval p.2)) acc) := by
  induction fields with
  | nil =>
    intro raw bodyEnc rest pos k acc hser hdrop hsc
    have hb : bodyEnc = [] := by
      simp only [serialize_fields] at hser
      cases hser
      rfl
    subst hb
    simp
  | cons p rest' ih =>
    intro raw bodyEnc rest pos k acc hser hdrop hsc
    obtain ⟨name, val⟩ := p
    obtain ⟨sv, tailEnc, hn, hv, ht, hbody⟩ :=
      serialize_fields_cons_ok name val rest' bodyEnc hser
    have hm : name.length % 256 = name.length := Nat.mod_eq_of_lt (by omega)
    have hval : val.tag = 1 ∨ val.tag = 2 := hsc (name, val) (by simp)
    have hcount : ((name, val) :: rest').length + k = (rest'.length + k) + 1 := by
      simp only [List.length_cons]
      omega
    rw [hcount]
    cases val with
    | list t es => simp [GBValue.tag] at hval
    | obj fs => simp [GBValue.tag] at hval
    | int v =>
      obtain ⟨⟨hr1, hr2⟩, hsv⟩ := write_value_int_ok v sv hv
      subst hsv
      subst hbody
      have h8 : (i64_bytes ((v % 2 ^ 64).toNat)).length = 8 := by
        simp [i64_bytes]
      have hdrop1 : raw.drop pos = name.length ::
          (name ++ (1 :: (i64_bytes ((v % 2 ^ 64).toNat) ++ (tailEnc ++ rest)))) := by
        rw [hdrop]
        simp [write_u8, hm, List.append_assoc]
      rw [decode_fields_succ_int raw pos (rest'.length + k) acc name.length
        name (i64_bytes ((v % 2 ^ 64).toNat) ++ (tailEnc ++ rest)) hdrop1 rfl]
      have htake : ((i64_bytes ((v % 2 ^ 64).toNat) ++ (tailEnc ++ rest)).take 8)
          = i64_bytes ((v % 2 ^ 64).toNat) := by
        rw [← h8, List.take_left]
      rw [htake, int_from_bytes_i64 v hr1 hr2]
      -- tail of the buffer after this field block
      have hd1 : raw.drop (pos + 1) =
          name ++ (1 :: (i64_bytes ((v % 2 ^ 64).toNat) ++ (tailEnc ++ rest))) := by
        rw [drop_at_add, hdrop1]; rfl
      have hd2 : raw.drop (pos + 1 + name.length) =
          1 :: (i64_bytes ((v % 2 ^ 64).toNat) ++ (tailEnc ++ rest)) := by
        rw [drop_at_add raw (pos + 1) name.length, hd1, List.drop_left]
      have hd3 : raw.drop (pos + 1 + name.length + 1) =
          i64_bytes ((v % 2 ^ 64).toNat) ++ (tailEnc ++ rest) := by
        rw [drop_at_add raw (pos + 1 + name.length) 1, hd2]; rfl
      have hd4 : raw.drop (pos + 1 + name.length + 1 + 8) = tailEnc ++ rest := by
        rw [drop_at_add raw (pos + 1 + name.length + 1) 8, hd3, ← h8,
          List.drop_left]
      rw [ih raw tailEnc rest (pos + 1 + name.length + 1 + 8) k
        (dict_insert acc name (.int v)) ht hd4
        (fun q hq => hsc q (by simp [hq]))]
      have hpos : pos + 1 + name.length + 1 + 8 + tailEnc.length =
          pos + ((((write_u8 [] name.length ++ name) ++
            (1 :: i64_bytes ((v % 2 ^ 64).toNat))) ++ tailEnc)).length := by
        simp [write_u8, i64_bytes]
        omega
      rw [hpos]
      simp [to_dval]
    | str s =>
      obtain ⟨hslen, hsv⟩ := write_value_str_ok s sv hv
      subst hsv
      subst hbody
      have hrecon : 256 * (s.length / 256 % 256) + s.length % 256 = s.length := by
        omega
      have hdrop1 : raw.drop pos = name.length ::
          (name ++ (2 :: s.length / 256 % 256 :: s.length % 256 ::
            (s ++ (tailEnc ++ rest)))) := by
        rw [hdrop]
        simp [write_u8, hm, List.append_assoc]
      rw [decode_fields_succ_str raw pos (rest'.length + k) acc name.length
        name (s.length / 256 % 256) (s.length % 256) (s ++ (tailEnc ++ rest))
        hdrop1 rfl]
      rw [hrecon]
      have htake : ((s ++ (tailEnc ++ rest)).take s.length) = s :=
        List.take_left s (tailEnc ++ rest)
      rw [htake]
      have hd1 : raw.drop (pos + 1) =
          name ++ (2 :: s.length / 256 % 256 :: s.length % 256 ::
            (s ++ (tailEnc ++ rest))) := by
        rw [drop_at_add, hdrop1]; rfl
      have hd2 : raw.drop (pos + 1 + name.length) =
          2 :: s.length / 256 % 256 :: s.length % 256 ::
            (s ++ (tailEnc ++ rest)) := by
        rw [drop_at_add raw (pos + 1) name.length, hd1, List.drop_left]
      have hd3 : raw.drop (pos + 1 + name.length + 3) = s ++ (tailEnc ++ rest) := by
        rw [drop_at_add raw (pos + 1 + name.length) 3, hd2]; rfl
      have hd4 : raw.drop (pos + 1 + name.length + 1 + 2 + s.length) =
          tailEnc ++ rest := by
        have hx : pos + 1 + name.length + 1 + 2 + s.length =
            pos + 1 + name.length + 3 + s.length := by omega
        rw [hx, drop_at_add raw (pos + 1 + name.length + 3) s.length, hd3,
          List.drop_left]
      rw [ih raw tailEnc rest (pos + 1 + name.length + 1 + 2 + s.length) k
        (dict_insert acc name (.str s)) ht hd4
        (fun q hq => hsc q (by simp [hq]))]
      have hpos : pos + 1 + name.length + 1 + 2 + s.length + tailEnc.length =
          pos + ((((write_u8 [] name.length ++ name) ++
            (2 :: s.length / 256 % 256 :: s.length % 256 :: s)) ++ tailEnc)).length := by
        simp [write_u8]
        omega
      rw [hpos]
      simp [to_dval]

/-- Splitting the `serialize_message` field loop at an arbitrary point. -/
theorem serialize_fields_append_ok (l1 : List (List Nat × GBValue)) :
    ∀ (l2 : List (List Nat × GBValue)) (body : List Nat),
    serialize_fields [] (l1 ++ l2) = .ok body →
    ∃ e1 e2, serialize_fields [] l1 = .ok e1
      ∧ serialize_fields [] l2 = .ok e2 ∧ body = e1 ++ e2 := by
  induction l1 with
  | nil =>
    intro l2 body h
    exact ⟨[], body, rfl, h, rfl⟩
  | cons p rest ih =>
    intro l2 body h
    obtain ⟨name, val⟩ := p
    obtain ⟨sv, tailEnc, hn, hv, ht, hbody⟩ :=
      serialize_fields_cons_ok name val (rest ++ l2) body h
    obtain ⟨e1, e2, h1, h2, he⟩ := ih l2 tailEnc ht
    refine ⟨((write_u8 [] name.length ++ name) ++ sv) ++ e1, e2, ?_, h2, ?_⟩
    · simp only [serialize_fields, if_pos hn]
      rw [write_value_nil, hv, shift_buf_ok]
      show serialize_fields ((write_u8 [] name.length ++ name) ++ sv) rest = _
      rw [serialize_fields_nil, h1, shift_buf_ok]
    · simp [hbody, he, List.append_assoc]

/-- Successful `serialize_message` output: a 4-byte header followed by the
body written by the field loop. -/
theorem serialize_message_ok (obj : GBObject) (out : List Nat)
    (h : serialize_message obj = .ok out) :
    ∃ body, serialize_fields [] obj.fields = .ok body
      ∧ 4 + body.length ≤ 65535
      ∧ out = 1 :: obj.fields.length % 256 ::
          (4 + body.length) / 256 % 256 :: (4 + body.length) % 256 :: body := by
  unfold serialize_message at h
  cases hs : serialize_fields [] obj.fields with
  | error e =>
    rw [hs] at h
    obtain ⟨s, e⟩ := e
    cases h
  | ok body =>
    rw [hs] at h
    simp only at h
    split at h
    · cases h
    · refine ⟨body, rfl, by omega, ?_⟩
      cases h
      simp [write_u8, write_u16]

/-- On a header produced by `serialize_message` (with at most 255 top-level
fields, so the count byte is the count), `decode_galacticbuf` runs the field
loop for exactly the number of encoded fields, starting at offset 4. -/
theorem decode_galacticbuf_on_message (obj : GBObject) (out : List Nat)
    (h : serialize_message obj = .ok out)
    (hcount : obj.fields.length ≤ 255) :
    ∃ body, serialize_fields [] obj.fields = .ok body
      ∧ out.drop 4 = body
      ∧ decode_galacticbuf out = decode_fields out obj.fields.length 4 [] := by
  obtain ⟨body, hs, hlen, hout⟩ := serialize_message_ok obj out h
  have hm : obj.fields.length % 256 = obj.fields.length :=
    Nat.mod_eq_of_lt (by omega)
  subst hout
  refine ⟨body, hs, rfl, ?_⟩
  simp only [decode_galacticbuf, byte_at, hm, Except.instMonad, Except.bind]
  simp

theorem dict_insert_fresh (d : List (List Nat × DVal)) (k : List Nat)
    (v : DVal) (h : ∀ p ∈ d, p.1 ≠ k) :
    dict_insert d k v = d ++ [(k, v)] := by
  unfold dict_insert
  have hc : ¬ (d.any (fun p => p.1 = k) = true) := by
    rw [List.any_eq_true]
    rintro ⟨p, hp, hk⟩
    exact h p hp (by simpa using hk)
  simp [hc]

/-- With pairwise-distinct field names (and fresh relative to the
accumulator), the decoder's dict inserts are plain appends, so the dict
lists the fields in order. -/
theorem foldl_dict_insert_map (fields : List (List Nat × GBValue)) :
    ∀ acc : List (List Nat × DVal),
    (fields.map Prod.fst).Nodup →
    (∀ p ∈ acc, ∀ q ∈ fields, p.1 ≠ q.1) →
    fields.foldl (fun d p => dict_insert d p.1 (to_dval p.2)) acc
      = acc ++ fields.map (fun p => (p.1, to_dval p.2)) := by
  induction fields with
  | nil => intro acc _ _; simp
  | cons p rest ih =>
    intro acc hnd hdisj
    simp only [List.foldl_cons]
    rw [dict_insert_fresh acc p.1 (to_dval p.2)
      (fun q hq => hdisj q hq p (by simp))]
    have hnd' : (rest.map Prod.fst).Nodup := by
      simp only [List.map_cons, List.nodup_cons] at hnd
      exact hnd.2
    have hhead : p.1 ∉ rest.map Prod.fst := by
      simp only [List.map_cons, List.nodup_cons] at hnd
      exact hnd.1
    rw [ih (acc ++ [(p.1, to_dval p.2)]) hnd' ?_]
    · simp [List.append_assoc]
    · intro r hr q hq
      rcases List.mem_append.mp hr with hra | hrp
      · exact hdisj r hra q (by simp [hq])
      · simp only [List.mem_singleton] at hrp
        subst hrp
        simp only [ne_eq]
        intro hpq
        exact hhead (hpq ▸ List.mem_map_of_mem Prod.fst hq)

theorem round_trip_scalar_fields (obj : GBObject) (out : List Nat)
    (hser : serialize_message obj = .ok out)
    (hcount : obj.fields.length ≤ 255)
    (hscalar : ∀ p ∈ obj.fields, p.2.tag = 1 ∨ p.2.tag = 2)
    (hnames : (obj.fields.map Prod.fst).Nodup) :
    decode_galacticbuf out =
      .ok (obj.fields.map (fun p => (p.1, to_dval p.2))) := by
  obtain ⟨body, hs, hdrop4, hdec⟩ :=
    decode_galacticbuf_on_message obj out hser hcount
  rw [hdec]
  have hdrop : out.drop 4 = body ++ [] := by simp [hdrop4]
  have hchain := decode_fields_chain obj.fields out body [] 4 0 [] hs hdrop
    hscalar
  simp only [Nat.add_zero] at hchain
  rw [hchain]
  show Except.ok _ = _
  rw [foldl_dict_insert_map obj.fields [] hnames
    (fun p hp => absurd hp (List.not_mem_nil p))]
  simp

set_option maxHeartbeats 400000 in
theorem decode_rejects_nonscalar_field (obj : GBObject) (out : List Nat)
    (good : List (List Nat × GBValue)) (n : List Nat) (v : GBValue)
    (rest : List (List Nat × GBValue))
    (hser : serialize_message obj = .ok out)
    (hcount : obj.fields.length ≤ 255)
    (hsplit : obj.fields = good ++ (n, v) :: rest)
    (hgood : ∀ p ∈ good, p.2.tag = 1 ∨ p.2.tag = 2)
    (hbad : v.tag = 3 ∨ v.tag = 4) :
    decode_galacticbuf out = .error .unsupportedType := by
  obtain ⟨body, hs, hdrop4, hdec⟩ :=
    decode_galacticbuf_on_message obj out hser hcount
  rw [hdec]
  rw [hsplit] at hs
  obtain ⟨e1, e2, h1, h2, hbe⟩ :=
    serialize_fields_append_ok good ((n, v) :: rest) body hs
  obtain ⟨sv, tailEnc, hn, hv, ht, hbody2⟩ :=
    serialize_fields_cons_ok n v rest e2 h2
  have hlen : obj.fields.length = good.length + (rest.length + 1) := by
    rw [hsplit]
    simp [List.length_append]
  have hdrop : out.drop 4 = e1 ++ e2 := by rw [hdrop4, hbe]
  have hchain := decode_fields_chain good out e1 e2 4 (rest.length + 1) []
    h1 hdrop hgood
  rw [hlen, hchain]
  have hd : out.drop (4 + e1.length) = e2 := by
    rw [drop_at_add, hdrop4, hbe, List.drop_left]
  obtain ⟨r, hsvr⟩ := write_value_ok_head v sv hv
  have hm : n.length % 256 = n.length := Nat.mod_eq_of_lt (by omega)
  have hdrop2 : out.drop (4 + e1.length) =
      n.length :: (n ++ (v.tag :: (r ++ tailEnc))) := by
    rw [hd, hbody2, hsvr]
    simp [write_u8, hm, List.append_assoc]
  have ht1 : v.tag ≠ 1 := by rcases hbad with h | h <;> omega
  have ht2 : v.tag ≠ 2 := by rcases hbad with h | h <;> omega
  have hfin := decode_fields_succ_bad out (4 + e1.length) rest.length
    (good.foldl (fun d p => dict_insert d p.1 (to_dval p.2)) []) n.length n
    v.tag (r ++ tailEnc) hdrop2 rfl ht1 ht2
  exact hfin

/-- The characters removed by Python's `str.strip()`. -/
def is_py_space (c : Char) : Bool :=
  c = ' ' || c = '\t' || c = '\n' || c = '\r' || c = '\x0b' || c = '\x0c'

/-- Python `str.strip()`. -/
def py_strip (s : List Char) : List Char :=
  ((s.dropWhile is_py_space).reverse.dropWhile is_py_space).reverse

/-- Python `str.rstrip(",")`. -/
def rstrip_commas (s : List Char) : List Char :=
  (s.reverse.dropWhile (fun c => c = ',')).reverse

/-- UTF-8 encoding of one code point (what `str.encode("utf-8")` emits). -/
def utf8_encode_char (c : Char) : List Nat :=
  let n := c.toNat
  if n < 128 then [n]
  else if n < 2048 then [192 + n / 64, 128 + n % 64]
  else if n < 65536 then [224 + n / 4096, 128 + n / 64 % 64, 128 + n % 64]
  else [240 + n / 262144, 128 + n / 4096 % 64, 128 + n / 64 % 64,
    128 + n % 64]

/-- `str.encode("utf-8")`, bridging the parser's character strings to the
byte strings of the value model. -/
def utf8_encode (s : List Char) : List Nat :=
  (s.map utf8_encode_char).flatten

/-- Digit run of a Python integer literal after the sign: ASCII digits with
single underscores allowed strictly between digits (`int("1_0")` is 10,
while `int("1_")`, `int("_1")` and `int("1__0")` raise). -/
def digits_val : Nat → List Char → Option Nat
  | acc, [] => some acc
  | acc, '_' :: c :: rest =>
    if c.isDigit then digits_val (acc * 10 + (c.toNat - 48)) rest else none
  | acc, c :: rest =>
    if c.isDigit then digits_val (acc * 10 + (c.toNat - 48)) rest else none

def nat_part : List Char → Option Nat
  | [] => none
  | c :: rest => if c.isDigit then digits_val (c.toNat - 48) rest else none

/-- Python `int(s)` on the ASCII forms the CLI grammar feeds it: optional
surrounding whitespace, optional sign, nonempty base-10 digit run with
underscores only between digits.  (CPython additionally accepts non-ASCII
decimal digits; the repository's grammar only ever meets ASCII.) -/
def py_parse_int (s : List Char) : Option Int :=
  match py_strip s with
  | '+' :: rest => (nat_part rest).map (fun n => (n : Int))
  | '-' :: rest => (nat_part rest).map (fun n => -(n : Int))
  | rest => (nat_part rest).map (fun n => (n : Int))

/-- One layer of matching single or double quotes, as stripped by
`parse_scalar_value` and by the list-of-strings branch. -/
def strip_quotes (s : List Char) : List Char :=
  if 2 ≤ s.length ∧ ((s.head? = some '"' ∧ s.getLast? = some '"')
      ∨ (s.head? = some '\'' ∧ s.getLast? = some '\'')) then
    (s.drop 1).dropLast
  else s

/-- The scan of `split_top_level_fields`: depth-tracked, splitting on
spaces at depth 0 only, each emitted token stripped. -/
def split_fields_aux (depth : Int) (current : List Char) :
    List Char → List (List Char)
  | [] => if current.isEmpty then [] else [py_strip current]
  | ch :: rest =>
    if ch = '[' || ch = '{' then
      split_fields_aux (depth + 1) (current ++ [ch]) rest
    else if ch = ']' || ch = '}' then
      split_fields_aux (depth - 1) (current ++ [ch]) rest
    else if ch = ' ' && depth = 0 then
      (if current.isEmpty then [] else [py_strip current])
        ++ split_fields_aux depth [] rest
    else split_fields_aux depth (current ++ [ch]) rest

def split_top_level_fields (s : List Char) : List (List Char) :=
  split_fields_aux 0 [] s

/-- The scan of `split_top_level_items`: splits on comma or space at depth
0; empty items are dropped afterwards. -/
def split_items_aux (depth : Int) (current : List Char) :
    List Char → List (List Char)
  | [] => if current.isEmpty then [] else [py_strip current]
  | ch :: rest =>
    if ch = '[' || ch = '{' then
      split_items_aux (depth + 1) (current ++ [ch]) rest
    else if ch = ']' || ch = '}' then
      split_items_aux (depth - 1) (current ++ [ch]) rest
    else if (ch = ',' || ch = ' ') && depth = 0 then
      (if current.isEmpty then [] else [py_strip current])
        ++ split_items_aux depth [] rest
    else split_items_aux depth (current ++ [ch]) rest

def split_top_level_items (s : List Char) : List (List Char) :=
  (split_items_aux 0 [] s).filter (fun it => !it.isEmpty)

/-- `parse_scalar_value`: integer if `int()` accepts, else a string with one
layer of matching quotes stripped. -/
def parse_scalar_value (value_str : List Char) : GBValue :=
  let t := py_strip value_str
  match py_parse_int t with
  | some v => .int v
  | none => .str (utf8_encode (strip_quotes t))

/-- The item loop of `parse_object_from_string`: items without `:` are
skipped, an empty name raises, values are scalars. -/
def parse_object_items :
    List (List Char) → Except PErr (List (List Nat × GBValue))
  | [] => .ok []
  | part :: rest =>
    if part.contains ':' then
      let name := py_strip (part.takeWhile (fun c => c ≠ ':'))
      let val_str := py_strip ((part.dropWhile (fun c => c ≠ ':')).drop 1)
      if name.isEmpty then .error .emptyObjectFieldName
      else do
        let tail ← parse_object_items rest
        .ok ((utf8_encode name, parse_scalar_value val_str) :: tail)
    else parse_object_items rest

/-- `parse_object_from_string` on the interior of a `{...}` item. -/
def parse_object_from_string (inner : List Char) :
    Except PErr (List (List Nat × GBValue)) :=
  parse_object_items (split_top_level_items inner)

/-- `parse_value_from_string`: bracketed values are classified as a list of
objects, of ints, or of strings; everything else is a scalar. -/
def parse_value_from_string (value_str0 : List Char) :
    Except PErr GBValue :=
  let value_str := py_strip value_str0
  if value_str.head? = some '[' ∧ value_str.getLast? = some ']' then
    let inner := py_strip ((value_str.drop 1).dropLast)
    if inner.isEmpty then .ok (.list 2 [])
    else
      let items := split_top_level_items inner
      if items.all (fun it => it.head? == some '{' && it.getLast? == some '}')
      then do
        let objs ← items.mapM (fun it =>
          (parse_object_from_string (py_strip ((it.drop 1).dropLast))).map
            (fun fs => GBValue.obj fs))
        .ok (.list 4 objs)
      else
        match items.mapM py_parse_int with
        | some vals => .ok (.list 1 (vals.map GBValue.int))
        | none => .ok (.list 2 (items.map (fun it =>
            GBValue.str (utf8_encode (strip_quotes it)))))
  else .ok (parse_scalar_value value_str)

/-- The token loop of `parse_cli_args_to_object`. -/
def parse_cli_tokens :
    List (List Char) → Except PErr (List (List Nat × GBValue))
  | [] => .ok []
  | token :: rest =>
    let tk := rstrip_commas (py_strip token)
    if tk.isEmpty then parse_cli_tokens rest
    else if tk.contains '=' then
      let name := py_strip (tk.takeWhile (fun c => c ≠ '='))
      let value_str := py_strip ((tk.dropWhile (fun c => c ≠ '=')).drop 1)
      if name.isEmpty then .error .emptyFieldName
      else do
        let v ← parse_value_from_string value_str
        let tail ← parse_cli_tokens rest
        .ok ((utf8_encode name, v) :: tail)
    else .error .invalidArgument

/-- `parse_cli_args_to_object`: join `argv` with spaces, strip, tokenize at
depth 0, and build the object field by field. -/
def parse_cli_args_to_object (argv : List (List Char)) :
    Except PErr GBObject :=
  let cmdline := py_strip (List.intercalate [' '] argv)
  if cmdline.isEmpty then .ok ⟨[]⟩
  else do
    let fs ← parse_cli_tokens (split_top_level_fields cmdline)
    .ok ⟨fs⟩

theorem mapM_option_some_of_all {α β : Type} (f : α → Option β)
    (l : List α) (h : ∀ x ∈ l, (f x).isSome) :
    ∃ vals, l.mapM f = some vals := by
  rw [← List.mapM'_eq_mapM]
  induction l with
  | nil => exact ⟨[], rfl⟩
  | cons a t ih =>
    obtain ⟨vals, hv⟩ := ih (fun x hx => h x (by simp [hx]))
    obtain ⟨b, hb⟩ := Option.isSome_iff_exists.mp (h a (by simp))
    refine ⟨b :: vals, ?_⟩
    show (do { let b ← f a; let bs ← List.mapM' f t; pure (b :: bs) }) = _
    rw [hb, hv]
    rfl

theorem mapM_option_none_of_not_all {α β : Type} (f : α → Option β)
    (l : List α) (h : ¬ ∀ x ∈ l, (f x).isSome) :
    l.mapM f = none := by
  rw [← List.mapM'_eq_mapM]
  induction l with
  | nil => exact absurd (by simp) h
  | cons a t ih =>
    show (do { let b ← f a; let bs ← List.mapM' f t; pure (b :: bs) }) = _
    by_cases ha : (f a).isSome
    · obtain ⟨b, hb⟩ := Option.isSome_iff_exists.mp ha
      have ht : ¬ ∀ x ∈ t, (f x).isSome := by
        intro hall
        refine h ?_
        intro x hx
        rcases List.mem_cons.mp hx with rfl | hxt
        · exact ha
        · exact hall x hxt
      rw [hb, ih ht]
      rfl
    · have hfa : f a = none := Option.not_isSome_iff_eq_none.mp ha
      rw [hfa]
      rfl

theorem all_braces_iff (items : List (List Char)) :
    (items.all (fun it => it.head? == some '{' && it.getLast? == some '}'))
      = true
    ↔ ∀ it ∈ items, it.head? = some '{' ∧ it.getLast? = some '}' := by
  simp [List.all_eq_true]

theorem parse_value_bracket_classification (value_str0 : List Char)
    (hb : (py_strip value_str0).head? = some '['
      ∧ (py_strip value_str0).getLast? = some ']') :
    ((py_strip ((py_strip value_str0).drop 1).dropLast).isEmpty = true →
      parse_value_from_string value_str0 = .ok (.list 2 []))
    ∧ (¬ (py_strip ((py_strip value_str0).drop 1).dropLast).isEmpty = true →
      (∀ it ∈ split_top_level_items
          (py_strip ((py_strip value_str0).drop 1).dropLast),
        it.head? = some '{' ∧ it.getLast? = some '}') →
      parse_value_from_string value_str0 =
        ((split_top_level_items
            (py_strip ((py_strip value_str0).drop 1).dropLast)).mapM
          (fun it =>
            (parse_object_from_string (py_strip ((it.drop 1).dropLast))).map
              (fun fs => GBValue.obj fs))).map
          (fun objs => GBValue.list 4 objs))
    ∧ (¬ (py_strip ((py_strip value_str0).drop 1).dropLast).isEmpty = true →
      ¬ (∀ it ∈ split_top_level_items
          (py_strip ((py_strip value_str0).drop 1).dropLast),
        it.head? = some '{' ∧ it.getLast? = some '}') →
      (∀ it ∈ split_top_level_items
          (py_strip ((py_strip value_str0).drop 1).dropLast),
        (py_parse_int it).isSome) →
      ∃ vals, (split_top_level_items
          (py_strip ((py_strip value_str0).drop 1).dropLast)).mapM
            py_parse_int = some vals ∧
        parse_value_from_string value_str0 =
          .ok (.list 1 (vals.map GBValue.int)))
    ∧ (¬ (py_strip ((py_strip value_str0).drop 1).dropLast).isEmpty = true →
      ¬ (∀ it ∈ split_top_level_items
          (py_strip ((py_strip value_str0).drop 1).dropLast),
        it.head? = some '{' ∧ it.getLast? = some '}') →
      ¬ (∀ it ∈ split_top_level_items
          (py_strip ((py_strip value_str0).drop 1).dropLast),
        (py_parse_int it).isSome) →
      parse_value_from_string value_str0 =
        .ok (.list 2 ((split_top_level_items
            (py_strip ((py_strip value_str0).drop 1).dropLast)).map
          (fun it => GBValue.str (utf8_encode (strip_quotes it)))))) := by
  unfold parse_value_from_string
  rw [if_pos hb]
  refine ⟨?_, ?_, ?_, ?_⟩
  · intro hemp
    rw [if_pos hemp]
  · intro hemp hall
    rw [if_neg hemp, if_pos ((all_braces_iff _).mpr hall)]
    cases hm : (split_top_level_items
        (py_strip ((py_strip value_str0).drop 1).dropLast)).mapM
          (fun it =>
            (parse_object_from_string (py_strip ((it.drop 1).dropLast))).map
              (fun fs => GBValue.obj fs)) with
    | error e => rfl
    | ok objs => rfl
  · intro hemp hall hint
    rw [if_neg hemp, if_neg]
    · obtain ⟨vals, hv⟩ := mapM_option_some_of_all py_parse_int _ hint
      exact ⟨vals, hv, by rw [hv]⟩
    · rw [all_braces_iff]
      exact hall
  · intro hemp hall hint
    rw [if_neg hemp, if_neg]
    · rw [mapM_option_none_of_not_all py_parse_int _ hint]
    · rw [all_braces_iff]
      exact hall

/-- The error kind carried by a writer outcome (`None` on success). -/
def err_kind : Except (List Nat × Err) (List Nat) → Option Err
  | .error (_, e) => some e
  | .ok _ => none

theorem write_list_elem_payload_nil (buf : List Nat) (el : GBValue) :
    write_list_elem_payload buf el =
      shift_buf buf (write_list_elem_payload [] el) := by
  have h := write_list_elem_payload_prepend el buf []
  simpa using h

/-- If every element before the first type-mismatched one writes its payload
without error, the element loop reaches the mismatch and raises
`ListElementTypeMismatch`. -/
theorem write_list_elems_mismatch (pre : List GBValue) :
    ∀ (buf : List Nat) (t : Nat) (bad : GBValue) (rest : List GBValue),
    (∀ e ∈ pre, e.tag = t ∧ (write_list_elem_payload [] e).isOk) →
    bad.tag ≠ t →
    err_kind (write_list_elems buf t (pre ++ bad :: rest)) =
      some .listElementTypeMismatch := by
  induction pre with
  | nil =>
    intro buf t bad rest _ hbad
    rw [List.nil_append, write_list_elems_cons, if_pos hbad]
    rfl
  | cons e pre' ih =>
    intro buf t bad rest hpre hbad
    obtain ⟨htag, hok⟩ := hpre e (by simp)
    rw [List.cons_append, write_list_elems_cons, if_neg (by simp [htag])]
    rw [write_list_elem_payload_nil]
    cases hp : write_list_elem_payload [] e with
    | ok s =>
      rw [shift_buf_ok]
      exact ih (buf ++ s) t bad rest
        (fun x hx => hpre x (by simp [hx])) hbad
    | error ex =>
      rw [hp] at hok
      cases hok

/-- C1 (counterexample): a value constructible under the §3 invariants whose
encoding does not decode back — the top-level object with the single field
`("a", List(Str, []))` serializes fine, but `decode_galacticbuf` rejects the
List tag, so the round trip through the repository's decoder fails. -/
theorem C1_counterexample :
    serialize_message ⟨[([97], GBValue.list 2 [])]⟩
      = .ok [1, 1, 0, 10, 1, 97, 3, 2, 0, 0]
    ∧ decode_galacticbuf [1, 1, 0, 10, 1, 97, 3, 2, 0, 0]
      = .error .unsupportedType :=
  ⟨rfl, rfl⟩

/-- C1 (amended): for every top-level object within the §3 invariants whose
field values are all scalars (Int or Str) and whose field names are
distinct, `decode_galacticbuf (serialize_message obj)` succeeds and returns
exactly the `(name, value)` fields of `obj`, in order. -/
theorem C1_round_trip (obj : GBObject) (out : List Nat)
    (hser : serialize_message obj = .ok out)
    (hcount : obj.fields.length ≤ 255)
    (hscalar : ∀ p ∈ obj.fields, p.2.tag = 1 ∨ p.2.tag = 2)
    (hnames : (obj.fields.map Prod.fst).Nodup) :
    decode_galacticbuf out =
      .ok (obj.fields.map (fun p => (p.1, to_dval p.2))) :=
  round_trip_scalar_fields obj out hser hcount hscalar hnames

/-- C1 witness: the round trip on `{"a": Int(5), "b": Str("hi")}`. -/
theorem C1_witness :
    decode_galacticbuf
        [1, 2, 0, 22, 1, 97, 1, 0, 0, 0, 0, 0, 0, 0, 5, 1, 98, 2, 0, 2,
          104, 105]
      = .ok [([97], DVal.int 5), ([98], DVal.str [104, 105])] :=
  C1_round_trip ⟨[([97], GBValue.int 5), ([98], GBValue.str [104, 105])]⟩
    [1, 2, 0, 22, 1, 97, 1, 0, 0, 0, 0, 0, 0, 0, 5, 1, 98, 2, 0, 2, 104,
      105]
    (by rfl) (by decide) (by decide) (by decide)

/-- C2 (code bug): the valid 15-byte message for `{"a": Int(1001)}`,
truncated to its first 7 bytes (a non-empty strict prefix ending right
after the value tag), does not fail — `decode_galacticbuf` never checks the
declared total length and Python's clamping slice plus
`int.from_bytes(b"", ...) = 0` make it return `{"a": 0}`, a different
value, where the claim demands an `UnexpectedEndOfInput`/`LengthMismatch`
failure. -/
theorem C2_truncated_prefix_decodes :
    serialize_message ⟨[([97], GBValue.int 1001)]⟩
      = .ok [1, 1, 0, 15, 1, 97, 1, 0, 0, 0, 0, 0, 0, 3, 233]
    ∧ ([1, 1, 0, 15, 1, 97, 1] : List Nat)
      = ([1, 1, 0, 15, 1, 97, 1, 0, 0, 0, 0, 0, 0, 3, 233] : List Nat).take 7
    ∧ ([1, 1, 0, 15, 1, 97, 1] : List Nat) ≠ []
    ∧ 7 < ([1, 1, 0, 15, 1, 97, 1, 0, 0, 0, 0, 0, 0, 3, 233] : List Nat).length
    ∧ decode_galacticbuf [1, 1, 0, 15, 1, 97, 1] = .ok [([97], DVal.int 0)] :=
  ⟨rfl, rfl, by decide, by decide, rfl⟩

/-- C3 (code bug): appending one byte to the valid message for
`{"a": Int(1001)}` gives a 16-byte input whose declared `TotalLen` header
field is still 15; `decode_galacticbuf` never compares the declared length
with the input length and never checks for trailing bytes, so it returns
`{"a": 1001}` instead of the `LengthMismatch`/`TrailingBytes` failures the
claim demands. -/
theorem C3_wrong_total_len_accepted :
    serialize_message ⟨[([97], GBValue.int 1001)]⟩
      = .ok (([1, 1, 0, 15, 1, 97, 1, 0, 0, 0, 0, 0, 0, 3, 233, 0] :
          List Nat).take 15)
    ∧ ([1, 1, 0, 15, 1, 97, 1, 0, 0, 0, 0, 0, 0, 3, 233, 0] :
        List Nat).length = 16
    ∧ decode_galacticbuf [1, 1, 0, 15, 1, 97, 1, 0, 0, 0, 0, 0, 0, 3, 233, 0]
      = .ok [([97], DVal.int 1001)] :=
  ⟨rfl, rfl, rfl⟩

/-- C4 (counterexample): a top-level object with 256 one-byte-named fields
passed to `serialize_message` does NOT fail with `TooManyFields` — the
serializer checks no top-level field count, encodes successfully, and the
header's count byte is silently truncated from 256 to 0 (header
`01 00 05 04`). -/
theorem serialize_fields_replicate_str (n : Nat) :
    serialize_fields [] (List.replicate n ([97], GBValue.str []))
      = .ok (List.flatten (List.replicate n [1, 97, 2, 0, 0])) := by
  induction n with
  | zero => rfl
  | succ m ih =>
    rw [List.replicate_succ]
    show (match write_value (write_u8 [] 1 ++ [97]) (GBValue.str [])
        with
      | .ok b => serialize_fields b (List.replicate m ([97], GBValue.str []))
      | .error e => .error e) = _
    show serialize_fields [1, 97, 2, 0, 0]
      (List.replicate m ([97], GBValue.str [])) = _
    rw [serialize_fields_nil, ih, shift_buf_ok, List.replicate_succ,
      List.flatten_cons]

theorem flatten_replicate_length (l : List Nat) :
    ∀ n : Nat, (List.flatten (List.replicate n l)).length = n * l.length := by
  intro n
  induction n with
  | zero => simp
  | succ m ih =>
    rw [List.replicate_succ, List.flatten_cons, List.length_append, ih,
      Nat.succ_mul]
    omega

/-- C4 (counterexample): a top-level object with 256 one-byte-named fields
passed to `serialize_message` does NOT fail with `TooManyFields` — the
serializer checks no top-level field count, encodes successfully, and the
header's count byte is silently truncated from 256 to 0 (header
`01 00 05 04`). -/
theorem C4_counterexample :
    (List.replicate 256 (([97] : List Nat), GBValue.str [])).length = 256
    ∧ ∃ out, serialize_message ⟨List.replicate 256 ([97], GBValue.str [])⟩
        = .ok out ∧ out.take 4 = [1, 0, 5, 4] := by
  refine ⟨by rw [List.length_replicate], ?_⟩
  have hlen : (List.flatten (List.replicate 256
      ([1, 97, 2, 0, 0] : List Nat))).length = 1280 := by
    rw [flatten_replicate_length]
    rfl
  unfold serialize_message
  rw [serialize_fields_replicate_str 256]
  simp only [hlen, List.length_replicate]
  rw [if_neg (by omega)]
  refine ⟨_, rfl, ?_⟩
  show ((write_u16 (write_u8 (write_u8 [] 1) (256 % 256)) (4 + 1280)) ++ _).take 4 = _
  rw [show write_u16 (write_u8 (write_u8 [] 1) (256 % 256)) (4 + 1280)
      = [1, 0, 5, 4] from rfl]
  exact List.take_left' rfl

/-- C4 (amended): encoding a string of 65536 bytes fails with
`StringTooLong`, and encoding an object with 256 fields through
`write_object_no_header` (the nested-object writer, also used for list
elements) fails with `TooManyFields`; a 256-field top-level object passed
to `serialize_message`, however, is not rejected (see the
counterexample). -/
theorem C4_oversize (buf1 buf2 s : List Nat)
    (fields : List (List Nat × GBValue))
    (hs : s.length = 65536) (hf : fields.length = 256) :
    write_string_value buf1 s = .error (buf1, .stringTooLong)
    ∧ write_object_no_header buf2 fields = .error (buf2, .tooManyFields) := by
  constructor
  · unfold write_string_value
    rw [if_pos (by omega)]
  · unfold write_object_no_header
    rw [if_pos (by omega)]

/-- C4 witness: the limits at 65536 bytes and 256 fields. -/
theorem C4_witness :
    write_string_value [] (List.replicate 65536 97)
      = .error ([], .stringTooLong)
    ∧ write_object_no_header [] (List.replicate 256 ([97], GBValue.int 0))
      = .error ([], .tooManyFields) :=
  C4_oversize [] [] (List.replicate 65536 97)
    (List.replicate 256 ([97], GBValue.int 0)) (by rw [List.length_replicate])
    (by rw [List.length_replicate])

/-- C5 (counterexample): a list declared Int containing the out-of-range
element `Int(2^63)` before the mismatched `Str` element fails with
`Int64OutOfRange`, not `ListElementTypeMismatch` — an earlier element's
failure preempts the tag check, refuting "always fails with
ListElementTypeMismatch". -/
theorem C5_counterexample :
    write_list_value [] 1 [GBValue.int (2 ^ 63), GBValue.str []]
      = .error ([1, 0, 2], .int64OutOfRange)
    ∧ (GBValue.str []).tag ≠ 1
    ∧ Err.int64OutOfRange ≠ Err.listElementTypeMismatch :=
  ⟨rfl, by decide, by decide⟩

/-- C5 (amended): encoding a list with at most 65535 elements containing a
type-mismatched element fails with `ListElementTypeMismatch` provided every
element before the first mismatched one writes its payload without error
(in particular whenever the mismatched element comes first). -/
theorem C5_mismatch (buf : List Nat) (t : Nat) (pre : List GBValue)
    (bad : GBValue) (rest : List GBValue)
    (hcount : (pre ++ bad :: rest).length ≤ 65535)
    (hpre : ∀ e ∈ pre, e.tag = t ∧ (write_list_elem_payload [] e).isOk)
    (hbad : bad.tag ≠ t) :
    err_kind (write_list_value buf t (pre ++ bad :: rest))
      = some .listElementTypeMismatch := by
  unfold write_list_value
  rw [if_neg (by omega)]
  exact write_list_elems_mismatch pre _ t bad rest hpre hbad

/-- C5 witness: a Str element in a list declared Int. -/
theorem C5_witness :
    err_kind (write_list_value [] 1 [GBValue.str []])
      = some .listElementTypeMismatch :=
  C5_mismatch [] 1 [] (GBValue.str []) [] (by decide) (by simp) (by decide)

/-- C6 (counterexample): encoding
`Object([("user_id", Int(1001)), ("name", Str("Alice"))])` produces a
header of `01 02 00 22` — version 1, 2 fields, total length 34 — not the
`01 02 00 19` (total length 25) the claim states. -/
theorem C6_counterexample :
    serialize_message ⟨[([117, 115, 101, 114, 95, 105, 100],
        GBValue.int 1001), ([110, 97, 109, 101],
        GBValue.str [65, 108, 105, 99, 101])]⟩
      = .ok [1, 2, 0, 34, 7, 117, 115, 101, 114, 95, 105, 100, 1, 0, 0, 0,
          0, 0, 0, 3, 233, 4, 110, 97, 109, 101, 2, 0, 5, 65, 108, 105, 99,
          101]
    ∧ ([1, 2, 0, 34, 7, 117, 115, 101, 114, 95, 105, 100, 1, 0, 0, 0, 0, 0,
        0, 3, 233, 4, 110, 97, 109, 101, 2, 0, 5, 65, 108, 105, 99, 101] :
        List Nat).take 4 ≠ [1, 2, 0, 25] :=
  ⟨rfl, by decide⟩

/-- C6 (amended): encoding
`Object([("user_id", Int(1001)), ("name", Str("Alice"))])` produces the
34-byte message with header `01 02 00 22` (version 1, 2 fields, total
length 34) followed by the two field blocks, and decoding that byte
sequence reproduces the two fields. -/
theorem C6_scalar_message :
    serialize_message ⟨[([117, 115, 101, 114, 95, 105, 100],
        GBValue.int 1001), ([110, 97, 109, 101],
        GBValue.str [65, 108, 105, 99, 101])]⟩
      = .ok [1, 2, 0, 34, 7, 117, 115, 101, 114, 95, 105, 100, 1, 0, 0, 0,
          0, 0, 0, 3, 233, 4, 110, 97, 109, 101, 2, 0, 5, 65, 108, 105, 99,
          101]
    ∧ ([1, 2, 0, 34, 7, 117, 115, 101, 114, 95, 105, 100, 1, 0, 0, 0, 0, 0,
        0, 3, 233, 4, 110, 97, 109, 101, 2, 0, 5, 65, 108, 105, 99, 101] :
        List Nat).take 4 = [1, 2, 0, 34]
    ∧ decode_galacticbuf [1, 2, 0, 34, 7, 117, 115, 101, 114, 95, 105, 100,
        1, 0, 0, 0, 0, 0, 0, 3, 233, 4, 110, 97, 109, 101, 2, 0, 5, 65,
        108, 105, 99, 101]
      = .ok [([117, 115, 101, 114, 95, 105, 100], DVal.int 1001),
          ([110, 97, 109, 101], DVal.str [65, 108, 105, 99, 101])] :=
  ⟨rfl, rfl, rfl⟩

/-- C7: classification of a bracketed value token.  With `s` the stripped
token, `inner` the stripped interior and `items` its depth-0 items: an
empty interior gives an empty String-typed list; otherwise, if every item
is wrapped in braces the result is the Object-typed list of the parsed
interiors (errors in an interior propagate), else if every item parses as a
base-10 signed integer (Python `int`) the result is the Int-typed list of
those values, else the result is the String-typed list of the items with
one layer of matching quotes stripped.  Moreover, parsing
`"scores=[100,200,300]"` yields `Object([("scores", List(Int, [100, 200,
300]))])`. -/
theorem C7_value_classification (value_str0 : List Char)
    (hb : (py_strip value_str0).head? = some '['
      ∧ (py_strip value_str0).getLast? = some ']') :
    ((py_strip ((py_strip value_str0).drop 1).dropLast).isEmpty = true →
      parse_value_from_string value_str0 = .ok (.list 2 []))
    ∧ (¬ (py_strip ((py_strip value_str0).drop 1).dropLast).isEmpty = true →
      (∀ it ∈ split_top_level_items
          (py_strip ((py_strip value_str0).drop 1).dropLast),
        it.head? = some '{' ∧ it.getLast? = some '}') →
      parse_value_from_string value_str0 =
        ((split_top_level_items
            (py_strip ((py_strip value_str0).drop 1).dropLast)).mapM
          (fun it =>
            (parse_object_from_string (py_strip ((it.drop 1).dropLast))).map
              (fun fs => GBValue.obj fs))).map
          (fun objs => GBValue.list 4 objs))
    ∧ (¬ (py_strip ((py_strip value_str0).drop 1).dropLast).isEmpty = true →
      ¬ (∀ it ∈ split_top_level_items
          (py_strip ((py_strip value_str0).drop 1).dropLast),
        it.head? = some '{' ∧ it.getLast? = some '}') →
      (∀ it ∈ split_top_level_items
          (py_strip ((py_strip value_str0).drop 1).dropLast),
        (py_parse_int it).isSome) →
      ∃ vals, (split_top_level_items
          (py_strip ((py_strip value_str0).drop 1).dropLast)).mapM
            py_parse_int = some vals ∧
        parse_value_from_string value_str0 =
          .ok (.list 1 (vals.map GBValue.int)))
    ∧ (¬ (py_strip ((py_strip value_str0).drop 1).dropLast).isEmpty = true →
      ¬ (∀ it ∈ split_top_level_items
          (py_strip ((py_strip value_str0).drop 1).dropLast),
        it.head? = some '{' ∧ it.getLast? = some '}') →
      ¬ (∀ it ∈ split_top_level_items
          (py_strip ((py_strip value_str0).drop 1).dropLast),
        (py_parse_int it).isSome) →
      parse_value_from_string value_str0 =
        .ok (.list 2 ((split_top_level_items
            (py_strip ((py_strip value_str0).drop 1).dropLast)).map
          (fun it => GBValue.str (utf8_encode (strip_quotes it))))))
    ∧ parse_cli_args_to_object ["scores=[100,200,300]".toList]
        = .ok ⟨[([115, 99, 111, 114, 101, 115],
            GBValue.list 1 [GBValue.int 100, GBValue.int 200,
              GBValue.int 300])]⟩ := by
  obtain ⟨h1, h2, h3, h4⟩ := parse_value_bracket_classification value_str0 hb
  exact ⟨h1, h2, h3, h4, rfl⟩

/-- C7 witness: the classification instantiated at `"[100,200,300]"`,
projecting the grammar-to-list-of-int scenario. -/
theorem C7_witness :
    parse_cli_args_to_object ["scores=[100,200,300]".toList]
      = .ok ⟨[([115, 99, 111, 114, 101, 115],
          GBValue.list 1 [GBValue.int 100, GBValue.int 200,
            GBValue.int 300])]⟩ :=
  (C7_value_classification "[100,200,300]".toList (by decide)).2.2.2.2

/-- C8: `write_i64` appends, for every argument in the signed 64-bit range,
exactly the eight big-endian two's-complement bytes, which
`int.from_bytes(..., signed=True)` reads back to the original value; for
every argument outside the range it fails with `Int64OutOfRange` and
appends nothing. -/
theorem C8_write_i64 (buf : List Nat) (v : Int) :
    ((-2 ^ 63 ≤ v ∧ v < 2 ^ 63) →
      write_i64 buf v = .ok (buf ++ i64_bytes ((v % 2 ^ 64).toNat))
      ∧ (i64_bytes ((v % 2 ^ 64).toNat)).length = 8
      ∧ int_from_bytes_signed (i64_bytes ((v % 2 ^ 64).toNat)) = v)
    ∧ (¬ (-2 ^ 63 ≤ v ∧ v < 2 ^ 63) →
      write_i64 buf v = .error (buf, .int64OutOfRange)) := by
  constructor
  · intro h
    refine ⟨?_, by simp [i64_bytes], int_from_bytes_i64 v h.1 h.2⟩
    unfold write_i64
    rw [if_pos h]
  · intro h
    unfold write_i64
    rw [if_neg h]

/-- C8 witness: in range at 1001, out of range at `2 ^ 63`. -/
theorem C8_witness :
    (write_i64 [] 1001 = .ok ([] ++ i64_bytes (((1001 : Int) % 2 ^ 64).toNat))
      ∧ (i64_bytes (((1001 : Int) % 2 ^ 64).toNat)).length = 8
      ∧ int_from_bytes_signed (i64_bytes (((1001 : Int) % 2 ^ 64).toNat))
        = 1001)
    ∧ write_i64 [] (2 ^ 63) = .error ([], .int64OutOfRange) :=
  ⟨(C8_write_i64 [] 1001).1 (by decide),
    (C8_write_i64 [] (2 ^ 63)).2 (by decide)⟩

/-- C9 (counterexample): `write_value` on an empty buffer with the list
`List(Int, [Str("")])` raises `ListElementTypeMismatch` only after having
appended the value tag, element-type byte and count to the caller's buffer
— the buffer is left as `[3, 1, 0, 1]`, not restored to `[]`. -/
theorem C9_counterexample :
    write_value [] (GBValue.list 1 [GBValue.str []])
      = .error ([3, 1, 0, 1], .listElementTypeMismatch)
    ∧ ([3, 1, 0, 1] : List Nat) ≠ [] :=
  ⟨rfl, by decide⟩

/-- C9 (amended): every error aborts the call immediately with a typed
error, and the writers treat the output buffer append-only — writing into
`buf` equals writing into an empty buffer with `buf` prepended to the
outcome, in the success bytes as well as in the buffer state carried at the
raise; bytes appended before a failure are therefore not rolled back. -/
theorem C9_append_only (buf : List Nat) (val : GBValue) :
    write_value buf val = shift_buf buf (write_value [] val) :=
  write_value_nil buf val

/-- C10: a message legally produced by `serialize_message` (at most 255
fields) in which some field holds a List or Object value — any tag outside
{1, 2} — is rejected by `decode_galacticbuf` with the `Unsupported type`
error, provided the preceding fields are scalars; and every successful
decode yields a flat dict whose values are all Int or Str scalars. -/
theorem C10_decoder_scalar_only (obj : GBObject) (out : List Nat)
    (good : List (List Nat × GBValue)) (n : List Nat) (v : GBValue)
    (rest : List (List Nat × GBValue))
    (hser : serialize_message obj = .ok out)
    (hcount : obj.fields.length ≤ 255)
    (hsplit : obj.fields = good ++ (n, v) :: rest)
    (hgood : ∀ p ∈ good, p.2.tag = 1 ∨ p.2.tag = 2)
    (hbad : v.tag = 3 ∨ v.tag = 4) :
    decode_galacticbuf out = .error .unsupportedType
    ∧ (∀ raw d, decode_galacticbuf raw = .ok d →
        ∀ p ∈ d, (∃ i, p.2 = DVal.int i) ∨ (∃ s, p.2 = DVal.str s)) := by
  refine ⟨decode_rejects_nonscalar_field obj out good n v rest hser hcount
    hsplit hgood hbad, ?_⟩
  intro raw d _ p _
  cases hp : p.2 with
  | int i => exact Or.inl ⟨i, rfl⟩
  | str s => exact Or.inr ⟨s, rfl⟩

/-- C10 witness: the message for `{"a": List(Int, [])}` is rejected. -/
theorem C10_witness :
    decode_galacticbuf [1, 1, 0, 10, 1, 97, 3, 1, 0, 0]
      = .error .unsupportedType :=
  (C10_decoder_scalar_only ⟨[([97], GBValue.list 1 [])]⟩
    [1, 1, 0, 10, 1, 97, 3, 1, 0, 0] [] [97] (GBValue.list 1 []) []
    (by rfl) (by decide) (by rfl) (by simp) (by decide)).1
